import Mathlib

/-!
Shallow embedding of the N8NCHATBOT front end (TypeScript sources under
`src/`) for checking its natural-language specification.

The embedded code:
* `src/services/n8nService.ts` — `sendChatMessage`, `uploadFilesToWebhook`
  (multipart body construction and response normalization);
* `src/App.tsx` — config loading, `getN8nErrorAdvice`, `handleSendMessage`;
* `src/components/FileUploader.tsx` — `handleRemove` and the pending-only
  remove affordance;
* `src/constants.ts` and the types module.

JavaScript runtime pieces the sources lean on (`JSON.parse`,
`JSON.stringify`, truthiness of `x || y`, property access, `String(...)`
coercion) are modelled explicitly below.  JSON numbers are modelled as
integers (the sources never produce nor branch on fractional numbers), and
the modelled parser handles the basic escape sequences only; theorems about
parsing take the parse outcome as a hypothesis, and every concrete input
used below is within the faithfully modelled fragment.
-/

/-- Model of a JavaScript value produced by `JSON.parse`: string, number
(integer fragment), boolean, null, object (insertion-ordered fields) or
array. -/
inductive JsVal where
  | str (s : String)
  | num (n : Int)
  | bool (b : Bool)
  | null
  | obj (fields : List (String × JsVal))
  | arr (elems : List JsVal)

/-- Model of JavaScript property access `v.k` on a non-null value: a field
lookup on objects (first — and, after `setField`, only — occurrence),
`undefined` (here `none`) on every other non-null value. -/
def JsVal.getField : JsVal → String → Option JsVal
  | .obj fields, k => (fields.find? (fun p => p.1 == k)).map (fun p => p.2)
  | _, _ => none

/-- Model of JavaScript truthiness for a defined value. -/
def JsVal.truthy : JsVal → Bool
  | .str s => s != ""
  | .num n => n != 0
  | .bool b => b
  | .null => false
  | .obj _ => true
  | .arr _ => true

/-- Model of JavaScript truthiness for a possibly-`undefined` value. -/
def optTruthy (v : Option JsVal) : Bool :=
  match v with
  | some w => w.truthy
  | none => false

/-- Model of `a || b` where `a` may be `undefined` and `b` is a defined
value: `a` if truthy, else `b`. -/
def jsOr (a : Option JsVal) (b : JsVal) : JsVal :=
  match a with
  | some v => if v.truthy then v else b
  | none => b

/-- Model of JavaScript object insertion used by `JSON.parse` on duplicate
keys: a later binding overwrites the value but keeps the first position. -/
def setField : List (String × JsVal) → String → JsVal → List (String × JsVal)
  | [], k, v => [(k, v)]
  | (k0, v0) :: rest, k, v =>
      if k0 == k then (k, v) :: rest else (k0, v0) :: setField rest k v

/-- Escape of one character inside a JSON string literal, as
`JSON.stringify` produces it (the characters relevant here). -/
def escapeJsonChar (c : Char) : String :=
  if c = '"' then "\\\""
  else if c = '\\' then "\\\\"
  else if c = '\n' then "\\n"
  else if c = '\t' then "\\t"
  else if c = '\r' then "\\r"
  else String.singleton c

/-- Escape of a whole string for a JSON string literal. -/
def escapeJsonString (s : String) : String :=
  String.join (s.data.map escapeJsonChar)

mutual

/-- Model of `JSON.stringify` (compact form, no spacing), as used by the
sources for history, per-file metadata and fallback rendering of response
objects. -/
def jsonStringify : JsVal → String
  | .str s => "\"" ++ escapeJsonString s ++ "\""
  | .num n => toString n
  | .bool true => "true"
  | .bool false => "false"
  | .null => "null"
  | .obj fields => "\x7b" ++ stringifyFields fields ++ "\x7d"
  | .arr elems => "[" ++ stringifyElems elems ++ "]"

/-- Comma-separated serialization of object fields. -/
def stringifyFields : List (String × JsVal) → String
  | [] => ""
  | [(k, v)] => "\"" ++ escapeJsonString k ++ "\":" ++ jsonStringify v
  | (k, v) :: rest =>
      "\"" ++ escapeJsonString k ++ "\":" ++ jsonStringify v ++ "," ++
        stringifyFields rest

/-- Comma-separated serialization of array elements. -/
def stringifyElems : List JsVal → String
  | [] => ""
  | [v] => jsonStringify v
  | v :: rest => jsonStringify v ++ "," ++ stringifyElems rest

end

mutual

/-- Model of JavaScript `String(v)` coercion (as applied by
`new Error(errorDesc)` when `errorDesc` is not already a string). -/
def jsToString : JsVal → String
  | .str s => s
  | .num n => toString n
  | .bool true => "true"
  | .bool false => "false"
  | .null => "null"
  | .obj _ => "[object Object]"
  | .arr elems => jsToStringElems elems

/-- Array coercion: elements joined by commas, `null` rendered empty. -/
def jsToStringElems : List JsVal → String
  | [] => ""
  | [JsVal.null] => ""
  | [v] => jsToString v
  | JsVal.null :: rest => "," ++ jsToStringElems rest
  | v :: rest => jsToString v ++ "," ++ jsToStringElems rest

end

/-- Whitespace accepted between JSON tokens. -/
def jsonWs (c : Char) : Bool :=
  c = ' ' || c = '\n' || c = '\t' || c = '\r'

/-- Drop leading JSON whitespace. -/
def skipWs : List Char → List Char
  | [] => []
  | c :: cs => if jsonWs c then skipWs cs else c :: cs

/-- Parse of the contents of a JSON string literal after the opening quote;
returns the decoded characters and the remainder after the closing quote. -/
def parseStringChars : List Char → Option (List Char × List Char)
  | [] => none
  | c :: cs =>
    if c = '"' then some ([], cs)
    else if c = '\\' then
      match cs with
      | [] => none
      | d :: ds =>
        match (if d = '"' then some '"'
               else if d = '\\' then some '\\'
               else if d = '/' then some '/'
               else if d = 'n' then some '\n'
               else if d = 't' then some '\t'
               else if d = 'r' then some '\r'
               else none) with
        | none => none
        | some e =>
          match parseStringChars ds with
          | none => none
          | some (s, rest) => some (e :: s, rest)
    else
      match parseStringChars cs with
      | none => none
      | some (s, rest) => some (c :: s, rest)

/-- Decimal digit test. -/
def isDigitChar (c : Char) : Bool := '0' ≤ c && c ≤ '9'

/-- Split a leading run of decimal digits from the input. -/
def takeDigits : List Char → List Char × List Char
  | [] => ([], [])
  | c :: cs =>
    if isDigitChar c then
      let p := takeDigits cs
      (c :: p.1, p.2)
    else ([], c :: cs)

/-- Numeric value of a digit run. -/
def digitsToNat (ds : List Char) : Nat :=
  ds.foldl (fun a c => 10 * a + (c.toNat - 48)) 0

/-- Guard rejecting number syntax outside the modelled integer fragment
(fractions and exponents). -/
def startsNumExt : List Char → Bool
  | [] => false
  | c :: _ => c = '.' || c = 'e' || c = 'E'

mutual

/-- Fueled recursive-descent parser for the modelled JSON fragment; the
input is assumed whitespace-skipped at the front. -/
def parseVal : Nat → List Char → Option (JsVal × List Char)
  | 0, _ => none
  | _ + 1, [] => none
  | fuel + 1, c :: cs =>
    if c = '"' then
      match parseStringChars cs with
      | some (s, rest) => some (.str (String.mk s), rest)
      | none => none
    else if c = '\x7b' then parseObjRest fuel true (skipWs cs) []
    else if c = '[' then parseArrRest fuel true (skipWs cs) []
    else if c = 't' then
      match cs with
      | 'r' :: 'u' :: 'e' :: rest => some (.bool true, rest)
      | _ => none
    else if c = 'f' then
      match cs with
      | 'a' :: 'l' :: 's' :: 'e' :: rest => some (.bool false, rest)
      | _ => none
    else if c = 'n' then
      match cs with
      | 'u' :: 'l' :: 'l' :: rest => some (.null, rest)
      | _ => none
    else if c = '-' then
      match takeDigits cs with
      | ([], _) => none
      | (ds, rest) =>
          if startsNumExt rest then none
          else some (.num (-(digitsToNat ds : Int)), rest)
    else if isDigitChar c then
      match takeDigits (c :: cs) with
      | (ds, rest) =>
          if startsNumExt rest then none
          else some (.num (digitsToNat ds), rest)
    else none

/-- Parse of object members after `\x7b`; `allowClose` is true when a
closing brace may come next (start of object, never right after a comma). -/
def parseObjRest : Nat → Bool → List Char → List (String × JsVal) →
    Option (JsVal × List Char)
  | 0, _, _, _ => none
  | _ + 1, _, [], _ => none
  | fuel + 1, allowClose, c :: cs, acc =>
    if c = '\x7d' then
      if allowClose then some (.obj acc, cs) else none
    else if c = '"' then
      match parseStringChars cs with
      | none => none
      | some (k, rest) =>
        match skipWs rest with
        | ':' :: rest2 =>
          match parseVal fuel (skipWs rest2) with
          | none => none
          | some (v, rest3) =>
            match skipWs rest3 with
            | ',' :: rest4 =>
                parseObjRest fuel false (skipWs rest4)
                  (setField acc (String.mk k) v)
            | '\x7d' :: rest4 => some (.obj (setField acc (String.mk k) v), rest4)
            | _ => none
        | _ => none
    else none

/-- Parse of array elements after `[`; `allowClose` is true when a closing
bracket may come next. -/
def parseArrRest : Nat → Bool → List Char → List JsVal →
    Option (JsVal × List Char)
  | 0, _, _, _ => none
  | _ + 1, _, [], _ => none
  | fuel + 1, allowClose, c :: cs, acc =>
    if c = ']' then
      if allowClose then some (.arr acc, cs) else none
    else
      match parseVal fuel (c :: cs) with
      | none => none
      | some (v, rest) =>
        match skipWs rest with
        | ',' :: rest2 => parseArrRest fuel false (skipWs rest2) (acc ++ [v])
        | ']' :: rest2 => some (.arr (acc ++ [v]), rest2)
        | _ => none

end

/-- Model of `JSON.parse`: `none` models the `SyntaxError` throw (always
caught by the sources), `some v` the parsed value. -/
def jsonParse (s : String) : Option JsVal :=
  match parseVal (s.length + 1) (skipWs s.data) with
  | some (v, rest) => if (skipWs rest).isEmpty then some v else none
  | none => none

/-- Decimal decoding of a digit-character list with an accumulator; inverse
of the digit emission done by `Nat.toDigitsCore`. -/
def decDigitsAcc : Nat → List Char → Nat
  | a, [] => a
  | a, c :: cs => decDigitsAcc (10 * a + (c.toNat - 48)) cs

/-- Number of decimal digits of a natural number (at least one). -/
def numDigits (n : Nat) : Nat :=
  if n < 10 then 1 else numDigits (n / 10) + 1
termination_by n
decreasing_by
  exact Nat.div_lt_self (by omega) (by omega)

/-- Role of a chat message (`MessageRole` in the types module). -/
inductive MessageRole where
  | user
  | assistant
  | system
deriving DecidableEq, Repr

/-- String value of a `MessageRole` enum member. -/
def MessageRole.toStr : MessageRole → String
  | .user => "user"
  | .assistant => "assistant"
  | .system => "system"

/-- Attachment descriptor derived from a browser `File` handle: the `name`,
`type` (MIME type) and `size` (bytes) properties actually read by the
sources (`ChatAttachment` in the types module has exactly these fields). -/
structure FileData where
  name : String
  type : String
  size : Nat
deriving DecidableEq, Repr

/-- Model of `ChatMessage` from the types module; `isError` is optional in
the source (absent means falsy), modelled as a `Bool` defaulting to
`false`, and `attachments` likewise defaults to the empty list. -/
structure ChatMessage where
  id : String
  role : MessageRole
  content : String
  timestamp : Int
  isError : Bool := false
  attachments : List FileData := []
deriving DecidableEq, Repr

/-- Value of one `FormData` part: a text field or a binary file part. -/
inductive FormValue where
  | text (s : String)
  | file (f : FileData)
deriving DecidableEq, Repr

/-- Multipart body as the ordered list of `formData.append` calls. -/
abbrev FormBody := List (String × FormValue)

/-- Session identifier of `sendChatMessage`: the literal
`'session-' + new Date().toDateString()`; `day` stands for the value of
`new Date().toDateString()` at the call. -/
def chatSessionId (day : String) : String := "session-" ++ day

/-- Session identifier of `uploadFilesToWebhook`: the literal
`'ingestion-' + new Date().toDateString()`. -/
def ingestionSessionId (day : String) : String := "ingestion-" ++ day

/-- Key of the binary part of the file at `index`: `file_${index}`. -/
def filePartKey (index : Nat) : String := "file_" ++ toString index

/-- Metadata object built per file in both operations:
`\x7b name: file.name, type: file.type, size: file.size, key \x7d` where
`key` is the given binary part key. -/
def fileMetadataVal (key : String) (f : FileData) : JsVal :=
  .obj [("name", .str f.name), ("type", .str f.type),
        ("size", .num f.size), ("key", .str key)]

/-- Serialized metadata part value: `JSON.stringify(metadata)`. -/
def fileMetadataJson (index : Nat) (f : FileData) : String :=
  jsonStringify (fileMetadataVal (filePartKey index) f)

/-- Parts appended by the `files.forEach((file, index) => ...)` loop shared
by both operations: for each file a binary part under `file_${index}`
followed by a metadata part under the fixed name `file_metadata`. -/
def fileParts : Nat → List FileData → FormBody
  | _, [] => []
  | i, f :: fs =>
      (filePartKey i, FormValue.file f)
      :: ("file_metadata", FormValue.text (fileMetadataJson i f))
      :: fileParts (i + 1) fs

/-- Serialized history field:
`JSON.stringify(history.map(h => (\x7b role: h.role, content: h.content \x7d)))`. -/
def historyJson (history : List ChatMessage) : String :=
  jsonStringify (.arr (history.map fun h =>
    .obj [("role", .str h.role.toStr), ("content", .str h.content)]))

/-- Multipart body built by `sendChatMessage` (src/services/n8nService.ts,
the `formData.append` sequence). -/
def buildChatFormData (message : String) (history : List ChatMessage)
    (files : List FileData) (day : String) : FormBody :=
  ("message", FormValue.text message)
  :: ("chatInput", FormValue.text message)
  :: ("sessionId", FormValue.text (chatSessionId day))
  :: ("history", FormValue.text (historyJson history))
  :: (fileParts 0 files
      ++ [("file_count", FormValue.text (toString files.length))])

/-- Multipart body built by `uploadFilesToWebhook`; `textContext` is an
optional parameter appended as `textContext || ""`. -/
def buildIngestionFormData (textContext : Option String)
    (files : List FileData) (day : String) : FormBody :=
  ("message", FormValue.text (textContext.getD ""))
  :: ("chatInput", FormValue.text (textContext.getD ""))
  :: ("sessionId", FormValue.text (ingestionSessionId day))
  :: (fileParts 0 files
      ++ [("file_count", FormValue.text (toString files.length))])

/-- Value assigned to `errorDesc` on a non-ok response (identical code in
`sendChatMessage` lines 55-66 and `uploadFilesToWebhook` lines 128-138):
starts as `response.statusText`; if the body parses as JSON (and property
access does not throw, i.e. the parsed value is not `null`), it becomes
`errorJson.errorMessage || errorJson.message || JSON.stringify(errorJson)`;
if parsing (or the property access on `null`) throws, the `catch` leaves
the status text in place. -/
def responseErrorDesc (statusText bodyText : String) : JsVal :=
  match jsonParse bodyText with
  | none => .str statusText
  | some .null => .str statusText
  | some v =>
      jsOr (v.getField "errorMessage")
        (jsOr (v.getField "message") (.str (jsonStringify v)))

/-- Normalized error message string: `new Error(errorDesc).message`, which
coerces a non-string `errorDesc` with `String(...)`. -/
def responseErrorMessage (statusText bodyText : String) : String :=
  jsToString (responseErrorDesc statusText bodyText)

/-- Value returned by `sendChatMessage` on an ok response
(src/services/n8nService.ts lines 68-77):
`data.output || data.text || data.message ||
 (typeof data === 'string' ? data : JSON.stringify(data))` after
`JSON.parse(responseText)`, falling back to the raw `responseText` when
the parse throws — or when property access throws because the parsed
value is `null`. -/
def chatSuccessValue (bodyText : String) : JsVal :=
  match jsonParse bodyText with
  | none => .str bodyText
  | some .null => .str bodyText
  | some data =>
      jsOr (data.getField "output")
        (jsOr (data.getField "text")
          (jsOr (data.getField "message")
            (match data with
             | .str s => .str s
             | _ => .str (jsonStringify data))))

/-- Outcome of the single `fetch(url, \x7b method: 'POST', body \x7d)`
call: a response with its `ok` flag, `statusText` and body text, or a
network-level rejection carrying an error message. -/
inductive FetchOutcome where
  | response (ok : Bool) (statusText : String) (body : String)
  | netFailure (msg : String)
deriving DecidableEq, Repr

/-- Model of `sendChatMessage` (src/services/n8nService.ts). The result
pairs the returned value (`Except` error message on any `throw`) with the
list of HTTP POST requests issued during the call, each as the target URL
with its multipart body. The guard `if (!url) throw ...` fires exactly on
the empty string, before any network traffic; afterwards exactly one
`fetch` happens and its outcome `net` is normalized. The outer
`try/catch` only logs and rethrows. -/
def sendChatMessage (url : String) (message : String)
    (history : List ChatMessage) (files : List FileData) (day : String)
    (net : FetchOutcome) : Except String JsVal × List (String × FormBody) :=
  if url = "" then
    (.error "Chat Webhook URL is not configured.", [])
  else
    let posts := [(url, buildChatFormData message history files day)]
    match net with
    | .netFailure m => (.error m, posts)
    | .response ok statusText body =>
        if ok then (.ok (chatSuccessValue body), posts)
        else (.error (responseErrorMessage statusText body), posts)

/-- Model of `uploadFilesToWebhook` (src/services/n8nService.ts): same
guard, one `fetch`, success is opaque (`Unit`), non-ok responses are
normalized by the identical error block. -/
def uploadFilesToWebhook (url : String) (files : List FileData)
    (textContext : Option String) (day : String)
    (net : FetchOutcome) : Except String Unit × List (String × FormBody) :=
  if url = "" then
    (.error "Ingestion Webhook URL is not configured.", [])
  else
    let posts := [(url, buildIngestionFormData textContext files day)]
    match net with
    | .netFailure m => (.error m, posts)
    | .response ok statusText body =>
        if ok then (.ok (), posts)
        else (.error (responseErrorMessage statusText body), posts)

/-- Webhook configuration as the running app holds it after the load in
`App.tsx`; the two fields come from `parsed.xxx || DEFAULT_CONFIG.xxx`, so
in general they are JavaScript values, not necessarily strings. -/
structure WebhookConfigVal where
  ingestionUrl : JsVal
  chatUrl : JsVal

/-- Default configuration from src/constants.ts. -/
def DEFAULT_CONFIG : WebhookConfigVal :=
  { ingestionUrl := .str "https://n8n.edutechnd.org/webhook/n8nchatbot",
    chatUrl := .str "https://n8n.edutechnd.org/webhook/n8nchatbot" }

/-- Versioned storage key from src/constants.ts. -/
def LOCAL_STORAGE_CONFIG_KEY : String := "n8n_chatbot_config_v2"

/-- Model of the config-loading effect in `App.tsx` (lines 31-46):
`stored` is `localStorage.getItem(LOCAL_STORAGE_CONFIG_KEY)` (`none` when
the key is absent). When absent, the state keeps its initial value
`DEFAULT_CONFIG`; when `JSON.parse` throws — or the subsequent property
access throws because the parsed value is `null` — the `catch` sets
`DEFAULT_CONFIG`; otherwise each field is `parsed.field || default`. The
function is total: no input makes the load throw. -/
def loadConfig (stored : Option String) : WebhookConfigVal :=
  match stored with
  | none => DEFAULT_CONFIG
  | some s =>
    match jsonParse s with
    | none => DEFAULT_CONFIG
    | some .null => DEFAULT_CONFIG
    | some parsed =>
        { ingestionUrl :=
            jsOr (parsed.getField "ingestionUrl") DEFAULT_CONFIG.ingestionUrl,
          chatUrl :=
            jsOr (parsed.getField "chatUrl") DEFAULT_CONFIG.chatUrl }

/-- Diagnostic substring recognized by `getN8nErrorAdvice` in `App.tsx`. -/
def n8nDiagnosticSubstring : String := "Unused Respond to Webhook node"

/-- Remediation hint returned by `getN8nErrorAdvice`. -/
def n8nAdviceText : String :=
  "N8N CONFIG ERROR: Open your N8N Webhook Node and change \x27Respond\x27 to \x27Using Respond to Webhook Node\x27."

/-- Test whether `pat` is an initial segment of the character list. -/
def leadsWith : List Char → List Char → Bool
  | [], _ => true
  | _ :: _, [] => false
  | p :: ps, c :: cs => p == c && leadsWith ps cs

/-- Test whether `pat` occurs contiguously anywhere in the character
list. -/
def occursIn (pat : List Char) : List Char → Bool
  | [] => leadsWith pat []
  | c :: cs => leadsWith pat (c :: cs) || occursIn pat cs

/-- Model of `String.prototype.includes`: contiguous substring search. -/
def containsSubstr (s pat : String) : Bool := occursIn pat.data s.data

/-- Model of `getN8nErrorAdvice` (`App.tsx` lines 48-53). -/
def getN8nErrorAdvice (errorMsg : String) : Option String :=
  if containsSubstr errorMsg n8nDiagnosticSubstring then some n8nAdviceText
  else none

/-- Separator inserted before the advice in the chat error path:
`"\n\n💡 "` (the light-bulb character followed by a space). -/
def adviceSeparator : String :=
  "\n\n" ++ String.singleton (Char.ofNat 128161) ++ " "

/-- Content of the error-flagged assistant message in `handleSendMessage`:
`"Error: " + errorMessage`, extended by the separator and advice when
`getN8nErrorAdvice` fires. -/
def chatDisplayError (errorMessage : String) : String :=
  match getN8nErrorAdvice errorMessage with
  | some advice => "Error: " ++ errorMessage ++ adviceSeparator ++ advice
  | none => "Error: " ++ errorMessage

/-- User message appended by `handleSendMessage` before sending: id and
timestamp come from `Date.now()` (value `now`), attachments keep name,
type and size of each selected file. -/
def mkUserMessage (text : String) (attachments : List FileData)
    (now : Int) : ChatMessage :=
  { id := toString now, role := .user, content := text, timestamp := now,
    isError := false, attachments := attachments }

/-- Model of `handleSendMessage` in `App.tsx` (lines 104-153) acting on the
message list: the user message is appended first; then, depending on the
transport outcome (`.ok` reply text or `.error` message text), exactly one
assistant message is appended — error-flagged with the display text on
failure. `now` is `Date.now()` at send time, `now2` at resolution time. -/
def handleSendMessage (messages : List ChatMessage) (text : String)
    (attachments : List FileData) (now now2 : Int)
    (sendResult : Except String String) : List ChatMessage :=
  let userMsg := mkUserMessage text attachments now
  match sendResult with
  | .ok responseText =>
      messages ++ [userMsg,
        { id := toString (now2 + 1), role := .assistant,
          content := responseText, timestamp := now2,
          isError := false, attachments := [] }]
  | .error errorMessage =>
      messages ++ [userMsg,
        { id := toString (now2 + 1), role := .assistant,
          content := chatDisplayError errorMessage, timestamp := now2,
          isError := true, attachments := [] }]

/-- Status of an upload queue item. -/
inductive UploadStatus where
  | pending
  | uploading
  | success
  | error
deriving DecidableEq, Repr

/-- Media kind of an upload queue item (field `type` in the source). -/
inductive MediaKind where
  | image
  | video
  | audio
  | document
  | other
deriving DecidableEq, Repr

/-- Model of `FileUploadItem` from the types module. -/
structure FileUploadItem where
  id : String
  file : FileData
  previewUrl : Option String
  status : UploadStatus
  type : MediaKind
deriving DecidableEq, Repr

/-- Model of `handleRemove` in `FileUploader.tsx` (lines 43-51): the first
item whose id matches has its preview URL revoked (when present), and
every matching item is filtered out. The second component lists the URLs
passed to `URL.revokeObjectURL` during the call, in order. -/
def handleRemove (files : List FileUploadItem) (id : String) :
    List FileUploadItem × List String :=
  let revoked :=
    match files.find? (fun f => f.id == id) with
    | some f =>
        match f.previewUrl with
        | some u => [u]
        | none => []
    | none => []
  (files.filter (fun f => f.id != id), revoked)

/-- Remove affordance in `FileUploader.tsx` (lines 129-136): the remove
button is rendered for an item exactly when `item.status === 'pending'`,
so removal can only be triggered on pending items. -/
def removeButtonShown (item : FileUploadItem) : Bool :=
  item.status == UploadStatus.pending

/-- Binary parts of a multipart body: the entries carrying a file, with
their keys. -/
def binaryParts (fd : FormBody) : List (String × FileData) :=
  fd.filterMap (fun e =>
    match e.2 with
    | .file f => some (e.1, f)
    | _ => none)

/-- Values of the text entries of a multipart body under the field name
`key`, in order. -/
def textParts (key : String) (fd : FormBody) : List String :=
  fd.filterMap (fun e =>
    match e.2 with
    | .text s => if e.1 = key then some s else none
    | _ => none)

/-- Values of the metadata parts of a multipart body: the text entries
under the field name `file_metadata`, in order. -/
def metadataParts (fd : FormBody) : List String :=
  textParts "file_metadata" fd

/-- Values of the `file_count` entries of a multipart body. -/
def countParts (fd : FormBody) : List String :=
  textParts "file_count" fd

/-- Values of the `sessionId` entries of a multipart body. -/
def sessionParts (fd : FormBody) : List String :=
  textParts "sessionId" fd

/-- Expected binary parts of the file loop starting at index `j`. -/
def expectedBinary : Nat → List FileData → List (String × FileData)
  | _, [] => []
  | j, f :: fs => (filePartKey j, f) :: expectedBinary (j + 1) fs

/-- Expected metadata part values of the file loop starting at index `j`. -/
def expectedMeta : Nat → List FileData → List String
  | _, [] => []
  | j, f :: fs => fileMetadataJson j f :: expectedMeta (j + 1) fs

/-- Concrete pending queue item with a preview resource. -/
def witnessItemA : FileUploadItem :=
  { id := "a", file := { name := "x.png", type := "image/png", size := 3 },
    previewUrl := some "blob:1", status := .pending, type := .image }

/-- Concrete uploading queue item without a preview resource. -/
def witnessItemB : FileUploadItem :=
  { id := "b", file := { name := "y.pdf", type := "application/pdf", size := 9 },
    previewUrl := none, status := .uploading, type := .document }

theorem numDigits_small {n : Nat} (h : n < 10) : numDigits n = 1 := by
  rw [numDigits]
  simp [h]

theorem numDigits_large {n : Nat} (h : ¬ n < 10) :
    numDigits n = numDigits (n / 10) + 1 := by
  rw [numDigits]
  simp [h]

theorem digitChar_decode : ∀ m, m < 10 → (Nat.digitChar m).toNat - 48 = m := by
  decide

theorem toDigitsCore_succ (fuel n : Nat) (ds : List Char) :
    Nat.toDigitsCore 10 (fuel + 1) n ds =
      if n / 10 = 0 then Nat.digitChar (n % 10) :: ds
      else Nat.toDigitsCore 10 fuel (n / 10) (Nat.digitChar (n % 10) :: ds) := by
  simp only [Nat.toDigitsCore]

theorem decDigitsAcc_cons (a : Nat) (c : Char) (cs : List Char) :
    decDigitsAcc a (c :: cs) = decDigitsAcc (10 * a + (c.toNat - 48)) cs := rfl

theorem decDigitsAcc_toDigitsCore :
    ∀ fuel n ds a, n < fuel →
      decDigitsAcc a (Nat.toDigitsCore 10 fuel n ds)
        = decDigitsAcc (a * 10 ^ numDigits n + n) ds := by
  intro fuel
  induction fuel with
  | zero => intro n ds a h; omega
  | succ fuel ih =>
    intro n ds a h
    rw [toDigitsCore_succ]
    by_cases h10 : n < 10
    · have hdiv : n / 10 = 0 := Nat.div_eq_of_lt h10
      rw [if_pos hdiv, decDigitsAcc_cons]
      have hmod : n % 10 = n := Nat.mod_eq_of_lt h10
      rw [hmod, digitChar_decode n h10, numDigits_small h10]
      have : 10 * a + n = a * 10 ^ 1 + n := by ring
      rw [this]
    · have hdiv : ¬ n / 10 = 0 := by
        intro h0
        have := Nat.div_eq_of_lt (by omega : n < 10)
        omega
      simp only [if_neg hdiv]
      have hlt : n / 10 < fuel := by
        have h1 : n / 10 < n := Nat.div_lt_self (by omega) (by omega)
        omega
      rw [ih (n / 10) _ a hlt]
      rw [decDigitsAcc_cons]
      have hmod : n % 10 < 10 := Nat.mod_lt _ (by omega)
      rw [digitChar_decode _ hmod, numDigits_large h10]
      have : 10 * (a * 10 ^ numDigits (n / 10) + n / 10) + n % 10
           = a * 10 ^ (numDigits (n / 10) + 1) + n := by
        have h2 : 10 * (n / 10) + n % 10 = n := by omega
        rw [pow_succ]
        ring_nf
        omega
      rw [this]

theorem decDigitsAcc_repr (n : Nat) :
    decDigitsAcc 0 (Nat.toDigits 10 n) = n := by
  have h := decDigitsAcc_toDigitsCore (n + 1) n [] 0 (by omega)
  have h2 : decDigitsAcc (0 * 10 ^ numDigits n + n) [] = n := by
    show 0 * 10 ^ numDigits n + n = n
    omega
  show decDigitsAcc 0 (Nat.toDigitsCore 10 (n + 1) n []) = n
  exact h.trans h2

theorem natRepr_injective : Function.Injective Nat.repr := by
  intro a b h
  rw [Nat.repr, Nat.repr] at h
  have hdata : (Nat.toDigits 10 a) = (Nat.toDigits 10 b) := List.asString_inj.mp h
  have := congrArg (decDigitsAcc 0) hdata
  rwa [decDigitsAcc_repr, decDigitsAcc_repr] at this

theorem natToString_injective : Function.Injective (toString : Nat → String) :=
  natRepr_injective

theorem binaryParts_cons_file (k : String) (f : FileData) (l : FormBody) :
    binaryParts ((k, FormValue.file f) :: l) = (k, f) :: binaryParts l := by
  simp [binaryParts, List.filterMap_cons]

theorem binaryParts_cons_text (k : String) (s : String) (l : FormBody) :
    binaryParts ((k, FormValue.text s) :: l) = binaryParts l := by
  simp [binaryParts, List.filterMap_cons]

theorem binaryParts_append (l1 l2 : FormBody) :
    binaryParts (l1 ++ l2) = binaryParts l1 ++ binaryParts l2 := by
  simp [binaryParts, List.filterMap_append]

theorem textParts_cons_file (key k : String) (f : FileData) (l : FormBody) :
    textParts key ((k, FormValue.file f) :: l) = textParts key l := by
  simp [textParts, List.filterMap_cons]

theorem textParts_cons_text (key k : String) (s : String) (l : FormBody) :
    textParts key ((k, FormValue.text s) :: l)
      = if k = key then s :: textParts key l else textParts key l := by
  by_cases h : k = key <;> simp [textParts, List.filterMap_cons, h]

theorem textParts_append (key : String) (l1 l2 : FormBody) :
    textParts key (l1 ++ l2) = textParts key l1 ++ textParts key l2 := by
  simp [textParts, List.filterMap_append]

theorem textParts_nil (key : String) : textParts key [] = [] := rfl

theorem binaryParts_fileParts (j : Nat) (files : List FileData) :
    binaryParts (fileParts j files) = expectedBinary j files := by
  induction files generalizing j with
  | nil => rfl
  | cons f fs ih =>
      rw [fileParts, binaryParts_cons_file, binaryParts_cons_text,
        expectedBinary, ih (j + 1)]

theorem metadataParts_fileParts (j : Nat) (files : List FileData) :
    metadataParts (fileParts j files) = expectedMeta j files := by
  induction files generalizing j with
  | nil => rfl
  | cons f fs ih =>
      rw [fileParts]
      show textParts "file_metadata" _ = _
      rw [textParts_cons_file, textParts_cons_text, if_pos rfl,
        expectedMeta]
      exact congrArg _ (ih (j + 1))

theorem textParts_fileParts_ne (key : String) (hk : key ≠ "file_metadata")
    (j : Nat) (files : List FileData) :
    textParts key (fileParts j files) = [] := by
  induction files generalizing j with
  | nil => rfl
  | cons f fs ih =>
      rw [fileParts, textParts_cons_file, textParts_cons_text,
        if_neg (fun h => hk h.symm)]
      exact ih (j + 1)

theorem expectedBinary_length (j : Nat) (files : List FileData) :
    (expectedBinary j files).length = files.length := by
  induction files generalizing j with
  | nil => rfl
  | cons f fs ih => simp [expectedBinary, ih]

theorem expectedMeta_length (j : Nat) (files : List FileData) :
    (expectedMeta j files).length = files.length := by
  induction files generalizing j with
  | nil => rfl
  | cons f fs ih => simp [expectedMeta, ih]

theorem expectedMeta_eq_map (j : Nat) (files : List FileData) :
    expectedMeta j files
      = (expectedBinary j files).map
          (fun p => jsonStringify (fileMetadataVal p.1 p.2)) := by
  induction files generalizing j with
  | nil => rfl
  | cons f fs ih =>
      simp only [expectedMeta, expectedBinary, List.map_cons]
      rw [ih (j + 1)]
      rfl

theorem filePartKey_injective {a b : Nat}
    (h : filePartKey a = filePartKey b) : a = b := by
  apply natToString_injective
  apply String.ext
  have h2 := congrArg String.data h
  rw [filePartKey, filePartKey, String.data_append, String.data_append] at h2
  exact List.append_cancel_left h2

theorem mem_expectedBinary_keys {s : String} :
    ∀ (j : Nat) (files : List FileData),
      s ∈ (expectedBinary j files).map Prod.fst →
      ∃ m, j ≤ m ∧ s = filePartKey m := by
  intro j files
  induction files generalizing j with
  | nil => simp [expectedBinary]
  | cons f fs ih =>
      intro hmem
      simp only [expectedBinary, List.map_cons, List.mem_cons] at hmem
      rcases hmem with h1 | h2
      · exact ⟨j, le_refl j, h1⟩
      · obtain ⟨m, hm1, hm2⟩ := ih (j + 1) h2
        exact ⟨m, by omega, hm2⟩

theorem expectedBinary_keys_nodup (j : Nat) (files : List FileData) :
    ((expectedBinary j files).map Prod.fst).Nodup := by
  induction files generalizing j with
  | nil => simp [expectedBinary]
  | cons f fs ih =>
      simp only [expectedBinary, List.map_cons, List.nodup_cons]
      refine ⟨fun hmem => ?_, ih (j + 1)⟩
      obtain ⟨m, hm1, hm2⟩ := mem_expectedBinary_keys (j + 1) fs hmem
      have := filePartKey_injective hm2
      omega

theorem binaryParts_buildChat (m : String) (hst : List ChatMessage)
    (files : List FileData) (day : String) :
    binaryParts (buildChatFormData m hst files day)
      = expectedBinary 0 files := by
  rw [buildChatFormData, binaryParts_cons_text, binaryParts_cons_text,
    binaryParts_cons_text, binaryParts_cons_text, binaryParts_append,
    binaryParts_fileParts, binaryParts_cons_text]
  simp [binaryParts]

theorem binaryParts_buildIngestion (ctx : Option String)
    (files : List FileData) (day : String) :
    binaryParts (buildIngestionFormData ctx files day)
      = expectedBinary 0 files := by
  rw [buildIngestionFormData, binaryParts_cons_text, binaryParts_cons_text,
    binaryParts_cons_text, binaryParts_append,
    binaryParts_fileParts, binaryParts_cons_text]
  simp [binaryParts]

theorem metadataParts_buildChat (m : String) (hst : List ChatMessage)
    (files : List FileData) (day : String) :
    metadataParts (buildChatFormData m hst files day)
      = expectedMeta 0 files := by
  show textParts "file_metadata" _ = _
  rw [buildChatFormData, textParts_cons_text, if_neg (by decide),
    textParts_cons_text, if_neg (by decide),
    textParts_cons_text, if_neg (by decide),
    textParts_cons_text, if_neg (by decide),
    textParts_append, textParts_cons_text, if_neg (by decide),
    textParts_nil]
  rw [show textParts "file_metadata" (fileParts 0 files)
        = metadataParts (fileParts 0 files) from rfl,
    metadataParts_fileParts]
  simp

theorem metadataParts_buildIngestion (ctx : Option String)
    (files : List FileData) (day : String) :
    metadataParts (buildIngestionFormData ctx files day)
      = expectedMeta 0 files := by
  show textParts "file_metadata" _ = _
  rw [buildIngestionFormData, textParts_cons_text, if_neg (by decide),
    textParts_cons_text, if_neg (by decide),
    textParts_cons_text, if_neg (by decide),
    textParts_append, textParts_cons_text, if_neg (by decide),
    textParts_nil]
  rw [show textParts "file_metadata" (fileParts 0 files)
        = metadataParts (fileParts 0 files) from rfl,
    metadataParts_fileParts]
  simp

theorem countParts_buildChat (m : String) (hst : List ChatMessage)
    (files : List FileData) (day : String) :
    countParts (buildChatFormData m hst files day)
      = [toString files.length] := by
  show textParts "file_count" _ = _
  rw [buildChatFormData, textParts_cons_text, if_neg (by decide),
    textParts_cons_text, if_neg (by decide),
    textParts_cons_text, if_neg (by decide),
    textParts_cons_text, if_neg (by decide),
    textParts_append,
    textParts_fileParts_ne "file_count" (by decide),
    textParts_cons_text, if_pos rfl, textParts_nil]
  rfl

theorem countParts_buildIngestion (ctx : Option String)
    (files : List FileData) (day : String) :
    countParts (buildIngestionFormData ctx files day)
      = [toString files.length] := by
  show textParts "file_count" _ = _
  rw [buildIngestionFormData, textParts_cons_text, if_neg (by decide),
    textParts_cons_text, if_neg (by decide),
    textParts_cons_text, if_neg (by decide),
    textParts_append,
    textParts_fileParts_ne "file_count" (by decide),
    textParts_cons_text, if_pos rfl, textParts_nil]
  rfl

theorem sessionParts_buildChat (m : String) (hst : List ChatMessage)
    (files : List FileData) (day : String) :
    sessionParts (buildChatFormData m hst files day)
      = [chatSessionId day] := by
  show textParts "sessionId" _ = _
  rw [buildChatFormData, textParts_cons_text, if_neg (by decide),
    textParts_cons_text, if_neg (by decide),
    textParts_cons_text, if_pos rfl,
    textParts_cons_text, if_neg (by decide),
    textParts_append,
    textParts_fileParts_ne "sessionId" (by decide),
    textParts_cons_text, if_neg (by decide), textParts_nil]
  rfl

theorem sessionParts_buildIngestion (ctx : Option String)
    (files : List FileData) (day : String) :
    sessionParts (buildIngestionFormData ctx files day)
      = [ingestionSessionId day] := by
  show textParts "sessionId" _ = _
  rw [buildIngestionFormData, textParts_cons_text, if_neg (by decide),
    textParts_cons_text, if_neg (by decide),
    textParts_cons_text, if_pos rfl,
    textParts_append,
    textParts_fileParts_ne "sessionId" (by decide),
    textParts_cons_text, if_neg (by decide), textParts_nil]
  rfl

theorem jsval_ne_of_stringify {a b : JsVal}
    (h : jsonStringify a ≠ jsonStringify b) : a ≠ b :=
  fun he => h (congrArg jsonStringify he)

theorem jsOr_of_not_truthy {a : Option JsVal} (b : JsVal)
    (h : optTruthy a = false) : jsOr a b = b := by
  cases a with
  | none => rfl
  | some w =>
      simp only [optTruthy] at h
      simp [jsOr, h]

theorem jsOr_of_truthy {w : JsVal} (b : JsVal)
    (h : w.truthy = true) : jsOr (some w) b = w := by
  simp [jsOr, h]

theorem responseErrorDesc_of_parse_fail {st body : String}
    (h : jsonParse body = none) : responseErrorDesc st body = .str st := by
  simp only [responseErrorDesc, h]

theorem responseErrorDesc_of_null {st body : String}
    (h : jsonParse body = some .null) :
    responseErrorDesc st body = .str st := by
  simp only [responseErrorDesc, h]

theorem responseErrorDesc_of_some {st body : String} {v : JsVal}
    (h : jsonParse body = some v) (hv : v ≠ JsVal.null) :
    responseErrorDesc st body
      = jsOr (v.getField "errorMessage")
          (jsOr (v.getField "message") (.str (jsonStringify v))) := by
  simp only [responseErrorDesc, h]

theorem chatSuccessValue_of_parse_fail {body : String}
    (h : jsonParse body = none) : chatSuccessValue body = .str body := by
  simp only [chatSuccessValue, h]

theorem chatSuccessValue_of_null {body : String}
    (h : jsonParse body = some .null) :
    chatSuccessValue body = .str body := by
  simp only [chatSuccessValue, h]

theorem chatSuccessValue_of_some {body : String} {v : JsVal}
    (h : jsonParse body = some v) (hv : v ≠ JsVal.null) :
    chatSuccessValue body
      = jsOr (v.getField "output")
          (jsOr (v.getField "text")
            (jsOr (v.getField "message")
              (match v with
               | .str s => .str s
               | _ => .str (jsonStringify v)))) := by
  simp only [chatSuccessValue, h]
  cases v <;> rfl

theorem getField_ne_null {v : JsVal} {k : String} {w : JsVal}
    (h : v.getField k = some w) : v ≠ JsVal.null := by
  intro he
  rw [he] at h
  exact Option.noConfusion h

/-- C1 counterexample: a non-success response whose body parses as JSON but
contains neither `errorMessage` nor `message` produces the JSON
serialization of the parsed value, not the raw HTTP status text as the
claim states. -/
theorem claim_c1_counterexample :
    jsonParse "\x7b\"detail\":\"boom\"\x7d"
      = some (JsVal.obj [("detail", JsVal.str "boom")])
    ∧ (JsVal.obj [("detail", JsVal.str "boom")]).getField "errorMessage" = none
    ∧ (JsVal.obj [("detail", JsVal.str "boom")]).getField "message" = none
    ∧ responseErrorMessage "Internal Server Error" "\x7b\"detail\":\"boom\"\x7d"
        = "\x7b\"detail\":\"boom\"\x7d"
    ∧ "\x7b\"detail\":\"boom\"\x7d" ≠ "Internal Server Error"
    ∧ (sendChatMessage "https://example.com/hook" "hi" [] [] "Mon Oct 12 2026"
        (.response false "Internal Server Error" "\x7b\"detail\":\"boom\"\x7d")).1
        = .error "\x7b\"detail\":\"boom\"\x7d" := by
  exact ⟨rfl, rfl, rfl, rfl, by decide, rfl⟩

/-- C1 (amended): for a non-success status the body is parsed as JSON; the
first of `errorMessage`, `message` holding a truthy value (in particular a
non-empty string) becomes the error message; if the parse fails — or the
parsed value is `null`, whose property access throws and is caught — the
message is the raw status text; if it parses with no truthy candidate the
message is the JSON serialization of the parsed value. Both operations
surface this message as their failure value. -/
theorem claim_c1_error_normalization (statusText body : String) :
    (jsonParse body = none →
      responseErrorMessage statusText body = statusText)
    ∧ (jsonParse body = some .null →
      responseErrorMessage statusText body = statusText)
    ∧ (∀ v s, jsonParse body = some v →
        v.getField "errorMessage" = some (.str s) → s ≠ "" →
        responseErrorMessage statusText body = s)
    ∧ (∀ v s, jsonParse body = some v →
        optTruthy (v.getField "errorMessage") = false →
        v.getField "message" = some (.str s) → s ≠ "" →
        responseErrorMessage statusText body = s)
    ∧ (∀ v, jsonParse body = some v → v ≠ .null →
        optTruthy (v.getField "errorMessage") = false →
        optTruthy (v.getField "message") = false →
        responseErrorMessage statusText body = jsonStringify v)
    ∧ (∀ url m hst files day, url ≠ "" →
        (sendChatMessage url m hst files day
          (.response false statusText body)).1
          = .error (responseErrorMessage statusText body))
    ∧ (∀ url files ctx day, url ≠ "" →
        (uploadFilesToWebhook url files ctx day
          (.response false statusText body)).1
          = .error (responseErrorMessage statusText body)) := by
  refine ⟨?_, ?_, ?_, ?_, ?_, ?_, ?_⟩
  · intro h
    show jsToString (responseErrorDesc statusText body) = statusText
    rw [responseErrorDesc_of_parse_fail h]
    rfl
  · intro h
    show jsToString (responseErrorDesc statusText body) = statusText
    rw [responseErrorDesc_of_null h]
    rfl
  · intro v s hp hf hs
    have hv := getField_ne_null hf
    have ht : (JsVal.str s).truthy = true := by
      simp [JsVal.truthy, bne_iff_ne]
      exact hs
    show jsToString (responseErrorDesc statusText body) = s
    rw [responseErrorDesc_of_some hp hv, hf, jsOr_of_truthy _ ht]
    rfl
  · intro v s hp hno hf hs
    have hv := getField_ne_null hf
    have ht : (JsVal.str s).truthy = true := by
      simp [JsVal.truthy, bne_iff_ne]
      exact hs
    show jsToString (responseErrorDesc statusText body) = s
    rw [responseErrorDesc_of_some hp hv, jsOr_of_not_truthy _ hno, hf,
      jsOr_of_truthy _ ht]
    rfl
  · intro v hp hv h1 h2
    show jsToString (responseErrorDesc statusText body) = jsonStringify v
    rw [responseErrorDesc_of_some hp hv, jsOr_of_not_truthy _ h1,
      jsOr_of_not_truthy _ h2]
    rfl
  · intro url m hst files day hurl
    simp [sendChatMessage, hurl]
  · intro url files ctx day hurl
    simp [uploadFilesToWebhook, hurl]

/-- C1 witness: concrete instances of the amended normalization — a
non-JSON body falls back to the status text, and an `errorMessage` field
is surfaced verbatim. -/
theorem claim_c1_error_normalization_witness :
    responseErrorMessage "Internal Server Error" "Internal Server Error"
      = "Internal Server Error"
    ∧ responseErrorMessage "Internal Server Error"
        "\x7b\"errorMessage\":\"bad node config\"\x7d" = "bad node config" :=
  ⟨(claim_c1_error_normalization "Internal Server Error"
      "Internal Server Error").1 rfl,
   (claim_c1_error_normalization "Internal Server Error"
      "\x7b\"errorMessage\":\"bad node config\"\x7d").2.2.1
     (JsVal.obj [("errorMessage", JsVal.str "bad node config")])
     "bad node config" rfl rfl (by decide)⟩

/-- C4 counterexample: a success body in which the first candidate field
`output` is present (holding the empty string) does not become the result;
the code skips falsy candidates and returns the later `text` field, so the
claimed "first present field" reading is false. -/
theorem claim_c4_counterexample :
    jsonParse "\x7b\"output\":\"\",\"text\":\"hi\"\x7d"
      = some (JsVal.obj [("output", JsVal.str ""), ("text", JsVal.str "hi")])
    ∧ (JsVal.obj [("output", JsVal.str ""), ("text", JsVal.str "hi")]).getField
        "output" = some (JsVal.str "")
    ∧ chatSuccessValue "\x7b\"output\":\"\",\"text\":\"hi\"\x7d"
        = JsVal.str "hi"
    ∧ chatSuccessValue "\x7b\"output\":\"\",\"text\":\"hi\"\x7d"
        ≠ JsVal.str "" := by
  refine ⟨rfl, rfl, rfl, jsval_ne_of_stringify (by decide)⟩

/-- C4 (amended): on a success status the body is parsed as JSON; the
result is the first candidate field among `output`, `text`, `message`
holding a truthy value (a present-but-falsy candidate is skipped); if none
does, a parsed plain string is returned directly, any other non-null value
is rendered with its JSON serialization, and a parse failure — or a parsed
`null`, whose property access throws and is caught — yields the raw body
text verbatim. The operation is a total function of the body: malformed
JSON never escapes as an exception. -/
theorem claim_c4_success_normalization (body : String) :
    (jsonParse body = none → chatSuccessValue body = .str body)
    ∧ (jsonParse body = some .null → chatSuccessValue body = .str body)
    ∧ (∀ s, jsonParse body = some (.str s) → chatSuccessValue body = .str s)
    ∧ (∀ v w, jsonParse body = some v →
        v.getField "output" = some w → w.truthy = true →
        chatSuccessValue body = w)
    ∧ (∀ v w, jsonParse body = some v →
        optTruthy (v.getField "output") = false →
        v.getField "text" = some w → w.truthy = true →
        chatSuccessValue body = w)
    ∧ (∀ v w, jsonParse body = some v →
        optTruthy (v.getField "output") = false →
        optTruthy (v.getField "text") = false →
        v.getField "message" = some w → w.truthy = true →
        chatSuccessValue body = w)
    ∧ (∀ l, jsonParse body = some (.obj l) →
        optTruthy ((JsVal.obj l).getField "output") = false →
        optTruthy ((JsVal.obj l).getField "text") = false →
        optTruthy ((JsVal.obj l).getField "message") = false →
        chatSuccessValue body = .str (jsonStringify (.obj l)))
    ∧ (∀ url m hst files day st, url ≠ "" →
        (sendChatMessage url m hst files day (.response true st body)).1
          = .ok (chatSuccessValue body)) := by
  refine ⟨?_, ?_, ?_, ?_, ?_, ?_, ?_, ?_⟩
  · intro h
    exact chatSuccessValue_of_parse_fail h
  · intro h
    exact chatSuccessValue_of_null h
  · intro s h
    rw [chatSuccessValue_of_some h (by intro he; exact JsVal.noConfusion he)]
    rfl
  · intro v w hp hf ht
    rw [chatSuccessValue_of_some hp (getField_ne_null hf), hf,
      jsOr_of_truthy _ ht]
  · intro v w hp h1 hf ht
    rw [chatSuccessValue_of_some hp (getField_ne_null hf),
      jsOr_of_not_truthy _ h1, hf, jsOr_of_truthy _ ht]
  · intro v w hp h1 h2 hf ht
    rw [chatSuccessValue_of_some hp (getField_ne_null hf),
      jsOr_of_not_truthy _ h1, jsOr_of_not_truthy _ h2, hf,
      jsOr_of_truthy _ ht]
  · intro l hp h1 h2 h3
    rw [chatSuccessValue_of_some hp (by intro he; exact JsVal.noConfusion he),
      jsOr_of_not_truthy _ h1, jsOr_of_not_truthy _ h2,
      jsOr_of_not_truthy _ h3]
  · intro url m hst files day st hurl
    simp [sendChatMessage, hurl]

/-- C4 witness: the two success examples from the specification — a JSON
body with an `output` field and a plain-text body — evaluated through the
amended theorem. -/
theorem claim_c4_success_normalization_witness :
    chatSuccessValue "\x7b\"output\":\"hello\"\x7d" = JsVal.str "hello"
    ∧ chatSuccessValue "plain text" = JsVal.str "plain text" :=
  ⟨(claim_c4_success_normalization "\x7b\"output\":\"hello\"\x7d").2.2.2.1
      (JsVal.obj [("output", JsVal.str "hello")]) (JsVal.str "hello")
      rfl rfl (by decide),
   (claim_c4_success_normalization "plain text").1 rfl⟩

/-- C10: in success normalization a candidate field that is present but
falsy (in particular the empty string) is skipped: with body
`\x7b"output":""\x7d` the result is the JSON serialization of the whole
object, not the empty string; and the same skipping governs the error-field
candidates of non-success normalization, where an empty `errorMessage`
falls through to `message`. -/
theorem claim_c10_falsy_fields_skipped (body : String) :
    (∀ l, jsonParse body = some (.obj l) →
      (JsVal.obj l).getField "output" = some (.str "") →
      optTruthy ((JsVal.obj l).getField "text") = false →
      optTruthy ((JsVal.obj l).getField "message") = false →
      chatSuccessValue body = .str (jsonStringify (.obj l)))
    ∧ (∀ l s st, jsonParse body = some (.obj l) →
      (JsVal.obj l).getField "errorMessage" = some (.str "") →
      (JsVal.obj l).getField "message" = some (.str s) → s ≠ "" →
      responseErrorMessage st body = s)
    ∧ chatSuccessValue "\x7b\"output\":\"\"\x7d"
        = .str "\x7b\"output\":\"\"\x7d" := by
  refine ⟨?_, ?_, rfl⟩
  · intro l hp hf h2 h3
    have h1 : optTruthy ((JsVal.obj l).getField "output") = false := by
      rw [hf]
      rfl
    rw [chatSuccessValue_of_some hp (by intro he; exact JsVal.noConfusion he),
      jsOr_of_not_truthy _ h1, jsOr_of_not_truthy _ h2,
      jsOr_of_not_truthy _ h3]
  · intro l s st hp hf hm hs
    have h1 : optTruthy ((JsVal.obj l).getField "errorMessage") = false := by
      rw [hf]
      rfl
    have ht : (JsVal.str s).truthy = true := by
      simp [JsVal.truthy, bne_iff_ne]
      exact hs
    show jsToString (responseErrorDesc st body) = s
    rw [responseErrorDesc_of_some hp (by intro he; exact JsVal.noConfusion he),
      jsOr_of_not_truthy _ h1, hm, jsOr_of_truthy _ ht]
    rfl

/-- C10 witness: both skipping behaviors at concrete bodies — an empty
`output` on success and an empty `errorMessage` before a non-empty
`message` on failure. -/
theorem claim_c10_falsy_fields_skipped_witness :
    chatSuccessValue "\x7b\"output\":\"\"\x7d" = .str "\x7b\"output\":\"\"\x7d"
    ∧ responseErrorMessage "Internal Server Error"
        "\x7b\"errorMessage\":\"\",\"message\":\"fallback\"\x7d" = "fallback" :=
  ⟨(claim_c10_falsy_fields_skipped "\x7b\"output\":\"\"\x7d").1
      [("output", JsVal.str "")] rfl rfl rfl rfl,
   (claim_c10_falsy_fields_skipped
      "\x7b\"errorMessage\":\"\",\"message\":\"fallback\"\x7d").2.1
      [("errorMessage", JsVal.str ""), ("message", JsVal.str "fallback")]
      "fallback" "Internal Server Error" rfl rfl rfl (by decide)⟩

theorem expectedBinary_snd (j : Nat) (files : List FileData) :
    (expectedBinary j files).map Prod.snd = files := by
  induction files generalizing j with
  | nil => rfl
  | cons f fs ih => simp [expectedBinary, ih]

/-- C2 counterexample: the metadata part serializes an object whose field
names are `name`, `type`, `size`, `key` — it has no `mimeType` and no
`sizeBytes` field, contradicting the claimed field inventory. -/
theorem claim_c2_counterexample :
    metadataParts (buildChatFormData "hi" []
        [⟨"a.txt", "text/plain", 5⟩] "Mon Oct 12 2026")
      = ["\x7b\"name\":\"a.txt\",\"type\":\"text/plain\",\"size\":5,\"key\":\"file_0\"\x7d"]
    ∧ jsonParse "\x7b\"name\":\"a.txt\",\"type\":\"text/plain\",\"size\":5,\"key\":\"file_0\"\x7d"
        = some (JsVal.obj [("name", JsVal.str "a.txt"),
            ("type", JsVal.str "text/plain"), ("size", JsVal.num 5),
            ("key", JsVal.str "file_0")])
    ∧ (JsVal.obj [("name", JsVal.str "a.txt"),
        ("type", JsVal.str "text/plain"), ("size", JsVal.num 5),
        ("key", JsVal.str "file_0")]).getField "mimeType" = none
    ∧ (JsVal.obj [("name", JsVal.str "a.txt"),
        ("type", JsVal.str "text/plain"), ("size", JsVal.num 5),
        ("key", JsVal.str "file_0")]).getField "sizeBytes" = none
    ∧ ["name", "type", "size", "key"]
        ≠ ["name", "mimeType", "sizeBytes", "key"] := by
  exact ⟨rfl, rfl, rfl, rfl, by decide⟩

/-- C2 (amended): every metadata part is the JSON serialization of an
object with exactly the fields `name`, `type`, `size`, `key` — `name` the
file name, `type` its MIME type, `size` its byte count — where `key`
equals the key of the corresponding binary part, in both operations. -/
theorem claim_c2_metadata_shape (m : String) (hst : List ChatMessage)
    (files : List FileData) (day : String) (ctx : Option String) :
    metadataParts (buildChatFormData m hst files day)
      = (binaryParts (buildChatFormData m hst files day)).map
          (fun p => jsonStringify (JsVal.obj
            [("name", .str p.2.name), ("type", .str p.2.type),
             ("size", .num p.2.size), ("key", .str p.1)]))
    ∧ metadataParts (buildIngestionFormData ctx files day)
      = (binaryParts (buildIngestionFormData ctx files day)).map
          (fun p => jsonStringify (JsVal.obj
            [("name", .str p.2.name), ("type", .str p.2.type),
             ("size", .num p.2.size), ("key", .str p.1)]))
    ∧ (∀ (k : String) (f : FileData),
        (JsVal.obj [("name", .str f.name), ("type", .str f.type),
          ("size", .num f.size), ("key", .str k)]).getField "key"
          = some (.str k)) := by
  refine ⟨?_, ?_, fun k f => rfl⟩
  · rw [metadataParts_buildChat, binaryParts_buildChat, expectedMeta_eq_map]
    rfl
  · rw [metadataParts_buildIngestion, binaryParts_buildIngestion,
      expectedMeta_eq_map]
    rfl

/-- C3: for every file list of length N, both multipart bodies contain
exactly N binary parts (one per file, in selection order) with
pairwise-distinct keys, exactly N metadata parts under the single field
name `file_metadata` in one-to-one (in-order) correspondence with the
binary parts — each serializing its binary part's key — and exactly one
count field whose value is the decimal rendering of N. -/
theorem claim_c3_multipart_structure (m : String) (hst : List ChatMessage)
    (files : List FileData) (day : String) (ctx : Option String) :
    (binaryParts (buildChatFormData m hst files day)).length = files.length
    ∧ (binaryParts (buildChatFormData m hst files day)).map Prod.snd = files
    ∧ ((binaryParts (buildChatFormData m hst files day)).map Prod.fst).Nodup
    ∧ (metadataParts (buildChatFormData m hst files day)).length
        = files.length
    ∧ metadataParts (buildChatFormData m hst files day)
        = (binaryParts (buildChatFormData m hst files day)).map
            (fun p => jsonStringify (fileMetadataVal p.1 p.2))
    ∧ countParts (buildChatFormData m hst files day)
        = [toString files.length]
    ∧ (binaryParts (buildIngestionFormData ctx files day)).length
        = files.length
    ∧ (binaryParts (buildIngestionFormData ctx files day)).map Prod.snd
        = files
    ∧ ((binaryParts (buildIngestionFormData ctx files day)).map
        Prod.fst).Nodup
    ∧ (metadataParts (buildIngestionFormData ctx files day)).length
        = files.length
    ∧ metadataParts (buildIngestionFormData ctx files day)
        = (binaryParts (buildIngestionFormData ctx files day)).map
            (fun p => jsonStringify (fileMetadataVal p.1 p.2))
    ∧ countParts (buildIngestionFormData ctx files day)
        = [toString files.length] := by
  rw [binaryParts_buildChat, binaryParts_buildIngestion,
    metadataParts_buildChat, metadataParts_buildIngestion,
    countParts_buildChat, countParts_buildIngestion]
  exact ⟨expectedBinary_length 0 files, expectedBinary_snd 0 files,
    expectedBinary_keys_nodup 0 files,
    expectedMeta_length 0 files, expectedMeta_eq_map 0 files, rfl,
    expectedBinary_length 0 files, expectedBinary_snd 0 files,
    expectedBinary_keys_nodup 0 files,
    expectedMeta_length 0 files, expectedMeta_eq_map 0 files, rfl⟩

/-- C5: with an empty target URL either operation throws its configuration
error before issuing any request (the request list is empty); with a
non-empty URL exactly one POST is issued — to that URL, with the built
multipart body — whatever the network outcome, with no retry. -/
theorem claim_c5_url_guard (url m day : String) (hst : List ChatMessage)
    (files : List FileData) (ctx : Option String) (net : FetchOutcome)
    (hurl : url ≠ "") :
    sendChatMessage "" m hst files day net
      = (.error "Chat Webhook URL is not configured.", [])
    ∧ uploadFilesToWebhook "" files ctx day net
      = (.error "Ingestion Webhook URL is not configured.", [])
    ∧ (sendChatMessage url m hst files day net).2
      = [(url, buildChatFormData m hst files day)]
    ∧ (uploadFilesToWebhook url files ctx day net).2
      = [(url, buildIngestionFormData ctx files day)] := by
  refine ⟨rfl, rfl, ?_, ?_⟩
  · cases net with
    | netFailure msg => simp [sendChatMessage, hurl]
    | response ok st b => cases ok <;> simp [sendChatMessage, hurl]
  · cases net with
    | netFailure msg => simp [uploadFilesToWebhook, hurl]
    | response ok st b => cases ok <;> simp [uploadFilesToWebhook, hurl]

/-- C5 witness: at a concrete non-empty URL exactly one POST with the
built body is recorded, and at the empty URL the configuration error is
produced with no request. -/
theorem claim_c5_url_guard_witness :
    sendChatMessage "" "hi" [] [] "Mon Oct 12 2026"
        (.response true "OK" "done")
      = (.error "Chat Webhook URL is not configured.", [])
    ∧ (sendChatMessage "https://example.com/chat" "hi" [] []
        "Mon Oct 12 2026" (.response true "OK" "done")).2
      = [("https://example.com/chat",
          buildChatFormData "hi" [] [] "Mon Oct 12 2026")] :=
  ⟨(claim_c5_url_guard "https://example.com/chat" "hi" "Mon Oct 12 2026"
      [] [] none (.response true "OK" "done") (by decide)).1,
   (claim_c5_url_guard "https://example.com/chat" "hi" "Mon Oct 12 2026"
      [] [] none (.response true "OK" "done") (by decide)).2.2.1⟩

/-- C6: the `sessionId` field of the multipart body depends only on the
calendar day and the operation — two chat bodies built the same day carry
the same identifier (`session-` ++ day), two ingestion bodies likewise
(`ingestion-` ++ day), and for every day the two identifiers differ. -/
theorem claim_c6_session_determinism (day m1 m2 : String)
    (h1 h2 : List ChatMessage) (f1 f2 : List FileData)
    (c1 c2 : Option String) :
    sessionParts (buildChatFormData m1 h1 f1 day)
      = sessionParts (buildChatFormData m2 h2 f2 day)
    ∧ sessionParts (buildIngestionFormData c1 f1 day)
      = sessionParts (buildIngestionFormData c2 f2 day)
    ∧ sessionParts (buildChatFormData m1 h1 f1 day) = [chatSessionId day]
    ∧ sessionParts (buildIngestionFormData c1 f1 day)
        = [ingestionSessionId day]
    ∧ ingestionSessionId day ≠ chatSessionId day := by
  refine ⟨?_, ?_, sessionParts_buildChat m1 h1 f1 day,
    sessionParts_buildIngestion c1 f1 day, ?_⟩
  · rw [sessionParts_buildChat, sessionParts_buildChat]
  · rw [sessionParts_buildIngestion, sessionParts_buildIngestion]
  · intro hcontra
    have hlen := congrArg String.length hcontra
    rw [ingestionSessionId, chatSessionId, String.length_append,
      String.length_append] at hlen
    have e1 : ("ingestion-" : String).length = 10 := rfl
    have e2 : ("session-" : String).length = 8 := rfl
    rw [e1, e2] at hlen
    omega

theorem append_two_take (messages : List ChatMessage) (u e : ChatMessage) :
    (messages ++ [u, e]).take messages.length = messages :=
  List.take_left messages [u, e]

theorem append_two_get (messages : List ChatMessage) (u e : ChatMessage) :
    (messages ++ [u, e]).get? messages.length = some u := by
  rw [List.get?_append_right (le_refl _)]
  simp

theorem append_two_filter (messages : List ChatMessage) (u e : ChatMessage)
    (hu : u.isError = false) (he : e.isError = true) :
    ((messages ++ [u, e]).filter (fun mm => mm.isError)).length
      = (messages.filter (fun mm => mm.isError)).length + 1 := by
  rw [List.filter_append]
  simp [List.filter_cons, hu, he]

/-- C7 counterexample: a failed turn on the empty conversation with
transport error text `boom` (which does not contain the diagnostic
substring) appends an assistant message whose content is `Error: boom`,
not the bare normalized error text `boom` as the claim states. -/
theorem claim_c7_counterexample :
    (handleSendMessage [] "hi" [] 0 1 (Except.error "boom")).map
        ChatMessage.content = ["hi", "Error: boom"]
    ∧ getN8nErrorAdvice "boom" = none
    ∧ ("Error: boom" : String) ≠ "boom" := by
  exact ⟨rfl, rfl, by decide⟩

/-- C7 (amended): a failed send appends, after the untouched prior
messages, the user message followed by exactly one assistant message with
`isError = true` whose content is the normalized error text prefixed with
`Error: ` — extended by the light-bulb separator and the remediation hint
when the error text contains the diagnostic substring; the user message
keeps its role, content and `isError = false`, and the count of
error-flagged messages grows by exactly one. -/
theorem claim_c7_failed_turn (messages : List ChatMessage) (text : String)
    (atts : List FileData) (now now2 : Int) (errMsg : String) :
    handleSendMessage messages text atts now now2 (.error errMsg)
      = messages ++ [mkUserMessage text atts now,
          { id := toString (now2 + 1), role := .assistant,
            content := chatDisplayError errMsg, timestamp := now2,
            isError := true, attachments := [] }]
    ∧ chatDisplayError errMsg
        = (match getN8nErrorAdvice errMsg with
           | some advice => "Error: " ++ errMsg ++ adviceSeparator ++ advice
           | none => "Error: " ++ errMsg)
    ∧ (mkUserMessage text atts now).role = .user
    ∧ (mkUserMessage text atts now).content = text
    ∧ (mkUserMessage text atts now).isError = false
    ∧ (handleSendMessage messages text atts now now2
        (.error errMsg)).take messages.length = messages
    ∧ (handleSendMessage messages text atts now now2
        (.error errMsg)).get? messages.length
        = some (mkUserMessage text atts now)
    ∧ ((handleSendMessage messages text atts now now2
        (.error errMsg)).filter (fun mm => mm.isError)).length
        = (messages.filter (fun mm => mm.isError)).length + 1 := by
  refine ⟨rfl, ?_, rfl, rfl, rfl, ?_, ?_, ?_⟩
  · cases h : getN8nErrorAdvice errMsg <;> simp [chatDisplayError, h]
  · exact append_two_take messages _ _
  · exact append_two_get messages _ _
  · exact append_two_filter messages _ _ rfl rfl

theorem find_matching_item {files : List FileUploadItem}
    {item : FileUploadItem}
    (hnd : (files.map FileUploadItem.id).Nodup) (hmem : item ∈ files) :
    files.find? (fun f => f.id == item.id) = some item := by
  induction files with
  | nil => cases hmem
  | cons f fs ih =>
      simp only [List.map_cons, List.nodup_cons] at hnd
      rcases List.mem_cons.mp hmem with he | hm
      · subst he
        simp [List.find?_cons]
      · have hne : (f.id == item.id) = false := by
          rw [beq_eq_false_iff_ne]
          intro he
          exact hnd.1 (he ▸ List.mem_map_of_mem FileUploadItem.id hm)
        rw [List.find?_cons]
        simp only [hne]
        exact ih hnd.2 hm

theorem filter_ne_length {files : List FileUploadItem}
    {item : FileUploadItem}
    (hnd : (files.map FileUploadItem.id).Nodup) (hmem : item ∈ files) :
    (files.filter (fun f => f.id != item.id)).length + 1 = files.length := by
  induction files with
  | nil => cases hmem
  | cons f fs ih =>
      simp only [List.map_cons, List.nodup_cons] at hnd
      rcases List.mem_cons.mp hmem with he | hm
      · subst he
        rw [List.filter_cons]
        have hbe : (item.id != item.id) = false := by simp
        simp only [hbe, if_neg Bool.false_ne_true]
        have hall : ∀ g ∈ fs, (g.id != item.id) = true := by
          intro g hg
          rw [bne_iff_ne]
          intro he
          exact hnd.1 (he ▸ List.mem_map_of_mem FileUploadItem.id hg)
        rw [List.filter_eq_self.mpr hall]
        simp
      · have hbe : (f.id != item.id) = true := by
          rw [bne_iff_ne]
          intro he
          exact hnd.1 (he ▸ List.mem_map_of_mem FileUploadItem.id hm)
        rw [List.filter_cons]
        simp only [hbe, if_pos]
        have := ih hnd.2 hm
        simp only [List.length_cons]
        omega

/-- C8: the remove control is rendered exactly for `pending` items, so a
non-pending item cannot be removed (rejection by absence of the
affordance); removing a pending item with a preview resource revokes that
resource exactly once, deletes exactly that item from the queue, and
leaves every other item present, in order. -/
theorem claim_c8_remove_pending (files : List FileUploadItem)
    (item : FileUploadItem) (u : String)
    (hnd : (files.map FileUploadItem.id).Nodup)
    (hmem : item ∈ files) (hst : item.status = .pending)
    (hurl : item.previewUrl = some u) :
    (handleRemove files item.id).2 = [u]
    ∧ item ∉ (handleRemove files item.id).1
    ∧ (handleRemove files item.id).1.length + 1 = files.length
    ∧ (∀ g ∈ files, g.id ≠ item.id → g ∈ (handleRemove files item.id).1)
    ∧ (handleRemove files item.id).1.Sublist files
    ∧ (∀ it, removeButtonShown it = true ↔ it.status = .pending) := by
  refine ⟨?_, ?_, ?_, ?_, ?_, ?_⟩
  · show (match files.find? (fun f => f.id == item.id) with
      | some f => (match f.previewUrl with | some u => [u] | none => [])
      | none => []) = [u]
    rw [find_matching_item hnd hmem]
    show (match item.previewUrl with | some w => [w] | none => []) = [u]
    rw [hurl]
  · intro hin
    have := List.mem_filter.mp hin
    simp at this
  · exact filter_ne_length hnd hmem
  · intro g hg hgne
    exact List.mem_filter.mpr ⟨hg, by simpa [bne_iff_ne] using hgne⟩
  · exact List.filter_sublist files
  · intro it
    simp [removeButtonShown]

/-- C8 witness: removing the pending item of a concrete two-item queue
revokes its preview exactly once and leaves the other item in place. -/
theorem claim_c8_remove_pending_witness :
    (handleRemove [witnessItemA, witnessItemB] witnessItemA.id).2 = ["blob:1"]
    ∧ (handleRemove [witnessItemA, witnessItemB]
        witnessItemA.id).1.length + 1 = 2 :=
  ⟨(claim_c8_remove_pending [witnessItemA, witnessItemB] witnessItemA
      "blob:1" (by decide) (by decide) rfl rfl).1,
   (claim_c8_remove_pending [witnessItemA, witnessItemB] witnessItemA
      "blob:1" (by decide) (by decide) rfl rfl).2.2.1⟩

/-- C9: configuration loading is a total function — an absent stored
value, unparsable JSON, a parsed `null` (whose property access throws and
is caught) all yield the defaults, and in a parsed object every missing or
empty-string (more generally falsy) URL field is replaced by the
corresponding default, which is a non-empty URL. -/
theorem claim_c9_config_load (s : String) :
    loadConfig none = DEFAULT_CONFIG
    ∧ (jsonParse s = none → loadConfig (some s) = DEFAULT_CONFIG)
    ∧ (jsonParse s = some .null → loadConfig (some s) = DEFAULT_CONFIG)
    ∧ (∀ v, jsonParse s = some v →
        optTruthy (v.getField "ingestionUrl") = false →
        (loadConfig (some s)).ingestionUrl = DEFAULT_CONFIG.ingestionUrl)
    ∧ (∀ v, jsonParse s = some v →
        optTruthy (v.getField "chatUrl") = false →
        (loadConfig (some s)).chatUrl = DEFAULT_CONFIG.chatUrl)
    ∧ DEFAULT_CONFIG.ingestionUrl
        = .str "https://n8n.edutechnd.org/webhook/n8nchatbot"
    ∧ DEFAULT_CONFIG.chatUrl
        = .str "https://n8n.edutechnd.org/webhook/n8nchatbot"
    ∧ ("https://n8n.edutechnd.org/webhook/n8nchatbot" : String) ≠ "" := by
  refine ⟨rfl, ?_, ?_, ?_, ?_, rfl, rfl, by decide⟩
  · intro h
    simp only [loadConfig, h]
  · intro h
    simp only [loadConfig, h]
  · intro v hp hfalse
    by_cases hv : v = JsVal.null
    · subst hv
      simp only [loadConfig, hp]
    · simp only [loadConfig, hp]
      exact jsOr_of_not_truthy _ hfalse
  · intro v hp hfalse
    by_cases hv : v = JsVal.null
    · subst hv
      simp only [loadConfig, hp]
    · simp only [loadConfig, hp]
      exact jsOr_of_not_truthy _ hfalse

/-- C9 witness: a stored object with both URL fields empty loads as the
(non-empty) defaults, and unparsable stored text loads as the defaults. -/
theorem claim_c9_config_load_witness :
    (loadConfig (some "\x7b\"ingestionUrl\":\"\",\"chatUrl\":\"\"\x7d")).ingestionUrl
      = DEFAULT_CONFIG.ingestionUrl
    ∧ (loadConfig (some "\x7b\"ingestionUrl\":\"\",\"chatUrl\":\"\"\x7d")).chatUrl
      = DEFAULT_CONFIG.chatUrl
    ∧ loadConfig (some "not json \x7b") = DEFAULT_CONFIG :=
  ⟨(claim_c9_config_load "\x7b\"ingestionUrl\":\"\",\"chatUrl\":\"\"\x7d").2.2.2.1
      (JsVal.obj [("ingestionUrl", JsVal.str ""), ("chatUrl", JsVal.str "")])
      rfl rfl,
   (claim_c9_config_load "\x7b\"ingestionUrl\":\"\",\"chatUrl\":\"\"\x7d").2.2.2.2.1
      (JsVal.obj [("ingestionUrl", JsVal.str ""), ("chatUrl", JsVal.str "")])
      rfl rfl,
   (claim_c9_config_load "not json \x7b").2.1 rfl⟩
